import Mathlib

/-!
# Verification of the `Receiver` stream demultiplexer (src/main.cpp)

Shallow embedding of the incremental byte-stream parser from `src/main.cpp`:
bytes are `Nat` (values of the C++ `uint8_t` type, always `< 256` at the
interface), the scan loop of `Receiver::Receive` becomes a fuel-indexed
recursive function (the C++ loop advances its cursor by at least 4 bytes per
iteration, so `buf.length + 1` units of fuel always suffice), and sink
invocations (`ICallback::BinaryPacket` / `ICallback::TextPacket`) become an
ordered output list of `Packet` values.
-/

namespace SenderReceiver

/-- A byte, as stored in the C++ `Byte = uint8_t` type.  Valid bytes are
`< 256`; where the embedding combines bytes into a 32-bit value it reduces
each byte `% 256`, exactly as the `uint8_t` storage does. -/
abbrev Byte := Nat

/-- Marker byte for a binary block, `START_BYTE_BINARY_BLOCK = 0x24`
(src/main.cpp:14). -/
def START_BYTE_BINARY_BLOCK : Byte := 0x24

/-- Terminator of a text block: the 4 bytes CR LF CR LF (src/main.cpp:15). -/
def ENDING_TEXT_BLOCK : List Byte := [0x0D, 0x0A, 0x0D, 0x0A]

/-- Size of marker plus length field:
`sizeof(START_BYTE_BINARY_BLOCK) + sizeof(BinSize) = 5` (src/main.cpp:20). -/
def BINARY_HEADER_SIZE : Nat := 5

/-- The value of `BinSize{b0,b1,b2,b3}.size` on the little-endian host the
program targets (src/main.cpp:16-19): the four `uint8_t` members overlay the
`uint32_t` with `b0` least significant. -/
def binSize (b0 b1 b2 b3 : Byte) : Nat :=
  b0 % 256 + (b1 % 256) * 256 + (b2 % 256) * 65536 + (b3 % 256) * 16777216

/-- Byte swap `__bswap_32` on a 32-bit value: reverses the four bytes of
`n % 2^32`. -/
def bswap32 (n : Nat) : Nat :=
  (n % 256) * 16777216 + (n / 256 % 256) * 65536 +
    (n / 65536 % 256) * 256 + (n / 16777216 % 256)

/-- The payload length the scan computes from the 4 bytes after the marker:
`__bswap_32(BinSize{p[0],p[1],p[2],p[3]}.size)` (src/main.cpp:121-124). -/
def payloadSizeOf (b0 b1 b2 b3 : Byte) : Nat :=
  bswap32 (binSize b0 b1 b2 b3)

/-- A sink invocation: `BinaryPacket` or `TextPacket` with the delivered
bytes (src/main.cpp:49-51). -/
inductive Packet where
  | binary (payload : List Byte)
  | text (payload : List Byte)
deriving DecidableEq, Repr

/-- Embedding of `std::search(ptr, endData, ...)` over the terminator
(src/main.cpp:139-141): offset of the first position at which the full 4-byte
terminator occurs, `none` when it does not occur. -/
def findTerm : List Byte → Option Nat
  | [] => none
  | b :: rest =>
    if ENDING_TEXT_BLOCK.isPrefixOf (b :: rest) then some 0
    else (findTerm rest).map (· + 1)

/-- The scan loop of `Receiver::Receive` (src/main.cpp:116-151) over the scan
buffer `buf`.  `p` is the cursor `ptr` and `d` the variable `data`, both as
offsets from `beginData`; `d` is the reset point the code jumps back to when a
binary payload is incomplete (`ptr = data`, src/main.cpp:132), updated only
after a delivered binary packet (`data = ptr`, src/main.cpp:130).  Returns the
sink invocations in order and the final cursor.  Fuel only bounds iteration
count; `buf.length + 1` is always enough since each iteration that continues
advances `p` by at least 4. -/
def scanLoop (buf : List Byte) : Nat → Nat → Nat → List Packet × Nat
  | 0, p, _ => ([], p)
  | fuel + 1, p, d =>
    if _h : p < buf.length then
      if buf.getD p 0 = START_BYTE_BINARY_BLOCK then
        -- left = endData - ptr; require strictly more than the header size
        if buf.length - p > BINARY_HEADER_SIZE then
          let payloadSize :=
            payloadSizeOf (buf.getD (p + 1) 0) (buf.getD (p + 2) 0)
              (buf.getD (p + 3) 0) (buf.getD (p + 4) 0)
          let q := p + BINARY_HEADER_SIZE
          if payloadSize ≤ buf.length - q then
            let r := scanLoop buf fuel (q + payloadSize) (q + payloadSize)
            (Packet.binary ((buf.drop q).take payloadSize) :: r.1, r.2)
          else
            -- ptr = data; break
            ([], d)
        else
          -- incomplete header: break with ptr unchanged
          ([], p)
      else
        match findTerm (buf.drop p) with
        | some k =>
          let r := scanLoop buf fuel (p + k + ENDING_TEXT_BLOCK.length) d
          (Packet.text ((buf.drop p).take k) :: r.1, r.2)
        | none =>
          -- incomplete text frame: break with ptr unchanged
          ([], p)
    else
      ([], p)

/-- Embedding of `Receiver::Receive` (src/main.cpp:98-162).  State is the carry-over
buffer `buffer`; returns the new buffer and the sink invocations of this call.
Mirrors the source: early return on empty input; append to a non-empty buffer
and scan the whole buffer, else scan the input directly; then either erase the
processed prefix from the buffer, copy the unprocessed tail into the empty
buffer, or leave the buffer as it stands after the append. -/
def receive (buffer data : List Byte) : List Byte × List Packet :=
  if data.length = 0 then (buffer, [])
  else
    let buf := if buffer.isEmpty then data else buffer ++ data
    let r := scanLoop buf (buf.length + 1) 0 0
    let processed := r.2
    let unprocessed := buf.length - processed
    if ¬buffer.isEmpty ∧ processed > 0 then
      (buf.drop processed, r.1)
    else if buffer.isEmpty ∧ unprocessed > 0 then
      -- copy the unprocessed tail into the (empty) carry-over buffer
      (buf.drop processed, r.1)
    else
      -- buffer state after the (possible) append, untouched
      (if buffer.isEmpty then buffer else buf, r.1)

/-- Feed a sequence of chunks to a fresh `Receiver`, collecting the carry-over
buffer and the concatenated ordered sink invocations. -/
def run (chunks : List (List Byte)) : List Byte × List Packet :=
  chunks.foldl
    (fun st c =>
      let r := receive st.1 c
      (r.1, st.2 ++ r.2))
    ([], [])

/-- Layout written by `pack<T>` for a fixed-size value (src/main.cpp:169-181):
marker byte, then
`BinSize{.size = __bswap_32(sizeof(value))}.bytes` laid out little-endian,
then the host-order (little-endian) bytes of the value. -/
def le32Bytes (n : Nat) : List Byte :=
  [n % 256, n / 256 % 256, n / 65536 % 256, n / 16777216 % 256]

/-- The 8 host-order (little-endian) bytes of a 64-bit value, as `memcpy`
of a `long long` produces them (src/main.cpp:178). -/
def le64Bytes (n : Nat) : List Byte :=
  [n % 256, n / 256 % 256, n / 65536 % 256, n / 16777216 % 256,
   n / 4294967296 % 256, n / 1099511627776 % 256,
   n / 281474976710656 % 256, n / 72057594037927936 % 256]

/-- Decode 8 little-endian bytes back into the 64-bit value, as the test
expression `*reinterpret_cast<long long*>(values.top().data())` does
(src/main.cpp:230). -/
def decodeLE64 (l : List Byte) : Nat :=
  l.getD 0 0 + l.getD 1 0 * 256 + l.getD 2 0 * 65536 +
    l.getD 3 0 * 16777216 + l.getD 4 0 * 4294967296 +
    l.getD 5 0 * 1099511627776 + l.getD 6 0 * 281474976710656 +
    l.getD 7 0 * 72057594037927936

/-- The encoded binary frame `pack` produces for an 8-byte value
(src/main.cpp:169-181): `0x24`, the length field bytes (little-endian layout
of `__bswap_32(8)`, i.e. big-endian 8), then the 8 bytes of the value. -/
def encBin64 (v : Nat) : List Byte :=
  START_BYTE_BINARY_BLOCK :: le32Bytes (bswap32 8) ++ le64Bytes v

/-! ## Helper lemmas -/

/-- When the cursor has reached (or passed) the end of the buffer the loop
condition `ptr < endData` fails and the scan returns immediately, for any
amount of fuel. -/
theorem scanLoop_of_le (buf : List Byte) (fuel p d : Nat)
    (h : buf.length ≤ p) : scanLoop buf fuel p d = ([], p) := by
  cases fuel with
  | zero => rfl
  | succ f => simp [scanLoop, Nat.not_lt.mpr h]

/-- Success case of the `std::search` embedding: if `findTerm l = some k` then
the terminator occurs at offset `k` and at no earlier offset. -/
theorem findTerm_some (l : List Byte) (k : Nat) (h : findTerm l = some k) :
    ENDING_TEXT_BLOCK.isPrefixOf (l.drop k) ∧
      ∀ j, j < k → ¬ENDING_TEXT_BLOCK.isPrefixOf (l.drop j) := by
  induction l generalizing k with
  | nil => simp [findTerm] at h
  | cons b rest ih =>
    by_cases hpre : ENDING_TEXT_BLOCK.isPrefixOf (b :: rest)
    · simp [findTerm, hpre] at h
      subst h
      exact ⟨hpre, fun j hj => absurd hj (Nat.not_lt_zero j)⟩
    · simp [findTerm, hpre] at h
      obtain ⟨k0, hk0, rfl⟩ := h
      obtain ⟨h1, h2⟩ := ih k0 hk0
      refine ⟨h1, fun j hj => ?_⟩
      cases j with
      | zero => simpa using hpre
      | succ j0 =>
        simpa using h2 j0 (Nat.lt_of_succ_lt_succ hj)

/-- Failure case of the `std::search` embedding: if `findTerm l = none` the
terminator occurs at no offset of `l`. -/
theorem findTerm_none (l : List Byte) (h : findTerm l = none) :
    ∀ j, ¬ENDING_TEXT_BLOCK.isPrefixOf (l.drop j) := by
  induction l with
  | nil => intro j; cases j <;> simp [ENDING_TEXT_BLOCK, List.isPrefixOf]
  | cons b rest ih =>
    intro j
    by_cases hpre : ENDING_TEXT_BLOCK.isPrefixOf (b :: rest)
    · simp [findTerm, hpre] at h
    · rw [findTerm, if_neg hpre] at h
      have hrest : findTerm rest = none := by
        cases hfr : findTerm rest with
        | none => rfl
        | some k => rw [hfr] at h; simp at h
      cases j with
      | zero => simpa using hpre
      | succ j0 => simpa using ih hrest j0

/-- A pattern matching at the head of a truncated list also matches at the
head of the full list. -/
theorem isPrefixOf_take {pat l : List Byte} {m : Nat}
    (h : pat.isPrefixOf (l.take m)) : pat.isPrefixOf l := by
  induction pat generalizing l m with
  | nil => simp [List.isPrefixOf]
  | cons a as ih =>
    cases l with
    | nil => cases m <;> simp [List.isPrefixOf] at h
    | cons b bs =>
      cases m with
      | zero => simp [List.isPrefixOf] at h
      | succ m0 =>
        simp only [List.take, List.isPrefixOf, Bool.and_eq_true] at h ⊢
        exact ⟨h.1, ih h.2⟩

/-- If the terminator sits right at the head of `l`, `std::search` finds it
at offset `0`. -/
theorem findTerm_at_head (l : List Byte)
    (h : ENDING_TEXT_BLOCK.isPrefixOf l) : findTerm l = some 0 := by
  cases l with
  | nil => simp [ENDING_TEXT_BLOCK, List.isPrefixOf] at h
  | cons b rest => simp [findTerm, h]

/-- One iteration of the scan loop on a marker byte whose header and full
payload are available: the payload bytes are delivered and both `ptr` and
`data` move past the payload (src/main.cpp:117-130). -/
theorem scanLoop_binary_step (buf : List Byte) (fuel p d : Nat)
    (hp : p < buf.length)
    (hm : buf.getD p 0 = START_BYTE_BINARY_BLOCK)
    (hleft : buf.length - p > BINARY_HEADER_SIZE)
    (hfit : payloadSizeOf (buf.getD (p + 1) 0) (buf.getD (p + 2) 0)
        (buf.getD (p + 3) 0) (buf.getD (p + 4) 0) ≤
          buf.length - (p + BINARY_HEADER_SIZE)) :
    scanLoop buf (fuel + 1) p d =
      (Packet.binary ((buf.drop (p + BINARY_HEADER_SIZE)).take
          (payloadSizeOf (buf.getD (p + 1) 0) (buf.getD (p + 2) 0)
            (buf.getD (p + 3) 0) (buf.getD (p + 4) 0))) ::
        (scanLoop buf fuel
          (p + BINARY_HEADER_SIZE +
            payloadSizeOf (buf.getD (p + 1) 0) (buf.getD (p + 2) 0)
              (buf.getD (p + 3) 0) (buf.getD (p + 4) 0))
          (p + BINARY_HEADER_SIZE +
            payloadSizeOf (buf.getD (p + 1) 0) (buf.getD (p + 2) 0)
              (buf.getD (p + 3) 0) (buf.getD (p + 4) 0))).1,
        (scanLoop buf fuel
          (p + BINARY_HEADER_SIZE +
            payloadSizeOf (buf.getD (p + 1) 0) (buf.getD (p + 2) 0)
              (buf.getD (p + 3) 0) (buf.getD (p + 4) 0))
          (p + BINARY_HEADER_SIZE +
            payloadSizeOf (buf.getD (p + 1) 0) (buf.getD (p + 2) 0)
              (buf.getD (p + 3) 0) (buf.getD (p + 4) 0))).2) := by
  rw [scanLoop, dif_pos hp, if_pos hm, if_pos hleft, if_pos hfit]

/-- One iteration of the scan loop on a non-marker byte with the terminator
found at offset `k` from the cursor: the `k` bytes before the terminator are
delivered and `ptr` moves past the terminator, `data` unchanged
(src/main.cpp:138-146). -/
theorem scanLoop_text_step (buf : List Byte) (fuel p d k : Nat)
    (hp : p < buf.length)
    (hm : buf.getD p 0 ≠ START_BYTE_BINARY_BLOCK)
    (hk : findTerm (buf.drop p) = some k) :
    scanLoop buf (fuel + 1) p d =
      (Packet.text ((buf.drop p).take k) ::
          (scanLoop buf fuel (p + k + 4) d).1,
        (scanLoop buf fuel (p + k + 4) d).2) := by
  rw [scanLoop, dif_pos hp, if_neg hm, hk]
  simp [ENDING_TEXT_BLOCK]

/-! ## Claim theorems -/

/-- C1: fragmentation invariance FAILS on the code.  The stream
`"A" CRLF CRLF · 0x24 00 00 00 02 · 0x42 0x43` fed as one call yields
`TextPacket "A"` then `BinaryPacket [0x42,0x43]`, but fed as the two chunks
split before the last payload byte it yields `TextPacket "A"` TWICE: when the
binary payload is found incomplete the code resets `ptr` to `data`
(src/main.cpp:132), which still points before the already-delivered text
frame, so that frame is rescanned and re-delivered on the next call. -/
theorem c1_fragmentation_invariance_fails :
    (run [[0x41, 0x0D, 0x0A, 0x0D, 0x0A, 0x24, 0, 0, 0, 2, 0x42, 0x43]]).2 =
      [Packet.text [0x41], Packet.binary [0x42, 0x43]] ∧
    (run [[0x41, 0x0D, 0x0A, 0x0D, 0x0A, 0x24, 0, 0, 0, 2, 0x42], [0x43]]).2 =
      [Packet.text [0x41], Packet.text [0x41], Packet.binary [0x42, 0x43]] ∧
    (run [[0x41, 0x0D, 0x0A, 0x0D, 0x0A, 0x24, 0, 0, 0, 2, 0x42], [0x43]]).2 ≠
      (run [[0x41, 0x0D, 0x0A, 0x0D, 0x0A, 0x24, 0, 0, 0, 2, 0x42, 0x43]]).2 := by
  refine ⟨by decide, by decide, by decide⟩

/-- C2: "no byte is ever delivered twice" FAILS on the code.  In the split
feed of the same stream the single input byte `0x41` (the input holds exactly
one copy) is delivered to the sink in two distinct `TextPacket` calls. -/
theorem c2_byte_delivered_twice :
    (([0x41, 0x0D, 0x0A, 0x0D, 0x0A, 0x24, 0, 0, 0, 2, 0x42] ++
        [0x43]).count 0x41 = 1) ∧
    ((run [[0x41, 0x0D, 0x0A, 0x0D, 0x0A, 0x24, 0, 0, 0, 2, 0x42],
        [0x43]]).2.count (Packet.text [0x41]) = 2) := by
  refine ⟨by decide, by decide⟩

/-- C3: the cursor is NOT reset to the marker byte of the incomplete frame.  In
`"A" CRLF CRLF · 0x24 00 00 00 02 · 0x42` the marker of the incomplete binary
frame sits at offset 5, so the claim demands final cursor 5 and carry-over
`[0x24,0,0,0,2,0x42]`; the code instead resets `ptr` to `data` (still offset
0, src/main.cpp:132), reports 0 processed bytes, and carries over the whole
input, including the already-delivered text frame. -/
theorem c3_cursor_reset_misses_marker :
    (scanLoop [0x41, 0x0D, 0x0A, 0x0D, 0x0A, 0x24, 0, 0, 0, 2, 0x42] 12 0 0).2
        = 0 ∧
    receive [] [0x41, 0x0D, 0x0A, 0x0D, 0x0A, 0x24, 0, 0, 0, 2, 0x42] =
      ([0x41, 0x0D, 0x0A, 0x0D, 0x0A, 0x24, 0, 0, 0, 2, 0x42],
        [Packet.text [0x41]]) := by
  refine ⟨by decide, by decide⟩

/-- C4: the header-presence check is STRICT (`left > BINARY_HEADER_SIZE`,
src/main.cpp:119), so a zero-length binary frame whose 5-byte header is
exactly the remaining input is NOT delivered: the input `0x24 00 00 00 00`
produces no sink call and is parked whole in the carry-over buffer, while the
claim demands an `onBinaryFrame` call with an empty payload. -/
theorem c4_zero_length_header_deferred :
    receive [] [0x24, 0, 0, 0, 0] = ([0x24, 0, 0, 0, 0], []) ∧
    (run [[0x24, 0, 0, 0, 0]]).2 = [] := by
  refine ⟨by decide, by decide⟩

/-- C6: the carry-over buffer does NOT always hold exactly the tail after the
last resolved frame boundary.  After feeding
`"A" CRLF CRLF · 0x24 00 00 00 02 · 0x42` the text frame `"A"` is resolved
(its closing boundary at offset 5), so the claim demands a 6-byte buffer
`[0x24,0,0,0,2,0x42]`; the buffer kept by the code holds all 11 bytes, including the
resolved text frame. -/
theorem c6_buffer_retains_resolved_frame :
    run [[0x41, 0x0D, 0x0A, 0x0D, 0x0A, 0x24, 0, 0, 0, 2, 0x42]] =
      ([0x41, 0x0D, 0x0A, 0x0D, 0x0A, 0x24, 0, 0, 0, 2, 0x42],
        [Packet.text [0x41]]) ∧
    [0x41, 0x0D, 0x0A, 0x0D, 0x0A, 0x24, 0, 0, 0, 2, 0x42] ≠
      ([0x24, 0, 0, 0, 2, 0x42] : List Byte) := by
  refine ⟨by decide, by decide⟩

/-- C8: the encoded binary frame for the 64-bit value 123456789
(src/main.cpp:169-181, 291-309), split at every cut point `i+1` for
`i+1 ∈ [1, 12]` and fed as two calls to a fresh parser, yields exactly one
`BinaryPacket` whose 8 payload bytes decode back to 123456789. -/
theorem c8_split_binary_frame_reassembled :
    ∀ i : Fin 12,
      (run [(encBin64 123456789).take (i.1 + 1),
          (encBin64 123456789).drop (i.1 + 1)]).2 =
        [Packet.binary (le64Bytes 123456789)] ∧
      decodeLE64 (le64Bytes 123456789) = 123456789 := by
  decide

/-- C9: feeding a zero-length input is a no-op: `Receive` returns at once
(src/main.cpp:102-104), invoking no sink call and leaving the carry-over
buffer unchanged. -/
theorem c9_empty_feed_noop (buffer : List Byte) :
    receive buffer [] = (buffer, []) := rfl

/-- C10: zero-length text frames are delivered, not skipped.  When the
cursor sits on a non-marker byte and the terminator occurs immediately at the
cursor, the scan delivers `TextPacket` with an empty byte sequence and
continues past the 4 terminator bytes (src/main.cpp:138-146). -/
theorem c10_zero_length_text_delivered (buf : List Byte) (fuel p d : Nat)
    (hp : p < buf.length)
    (hm : buf.getD p 0 ≠ START_BYTE_BINARY_BLOCK)
    (ht : ENDING_TEXT_BLOCK.isPrefixOf (buf.drop p)) :
    scanLoop buf (fuel + 1) p d =
      (Packet.text [] :: (scanLoop buf fuel (p + 4) d).1,
        (scanLoop buf fuel (p + 4) d).2) := by
  have hk := findTerm_at_head _ ht
  simpa using scanLoop_text_step buf fuel p d 0 hp hm hk

/-- Witness for C10 at the concrete input `[0x0D,0x0A,0x0D,0x0A]`. -/
theorem c10_zero_length_text_delivered_witness :
    (0 < ([0x0D, 0x0A, 0x0D, 0x0A] : List Byte).length ∧
      ([0x0D, 0x0A, 0x0D, 0x0A] : List Byte).getD 0 0 ≠
        START_BYTE_BINARY_BLOCK ∧
      ENDING_TEXT_BLOCK.isPrefixOf
        (([0x0D, 0x0A, 0x0D, 0x0A] : List Byte).drop 0)) ∧
    scanLoop [0x0D, 0x0A, 0x0D, 0x0A] (0 + 1) 0 0 =
      (Packet.text [] :: (scanLoop [0x0D, 0x0A, 0x0D, 0x0A] 0 (0 + 4) 0).1,
        (scanLoop [0x0D, 0x0A, 0x0D, 0x0A] 0 (0 + 4) 0).2) :=
  ⟨⟨by decide, by decide, by decide⟩,
    c10_zero_length_text_delivered [0x0D, 0x0A, 0x0D, 0x0A] 0 0 0
      (by decide) (by decide) (by decide)⟩

/-- C5: text-frame delivery.  On a non-marker byte: if the terminator occurs,
the bytes from the cursor up to (excluding) its first occurrence are delivered
as one `TextPacket` — so the delivered bytes contain no occurrence of the
terminator — the terminator is at the cut point and is skipped, the cursor
advancing past it; if the terminator does not occur, the scan stops with the
cursor still at the start of the unterminated text (src/main.cpp:138-150). -/
theorem c5_text_frame_delivery (buf : List Byte) (fuel p d : Nat)
    (hp : p < buf.length)
    (hm : buf.getD p 0 ≠ START_BYTE_BINARY_BLOCK) :
    (∀ k, findTerm (buf.drop p) = some k →
        scanLoop buf (fuel + 1) p d =
          (Packet.text ((buf.drop p).take k) ::
              (scanLoop buf fuel (p + k + 4) d).1,
            (scanLoop buf fuel (p + k + 4) d).2) ∧
        ENDING_TEXT_BLOCK.isPrefixOf ((buf.drop p).drop k) ∧
        ∀ j, ¬ENDING_TEXT_BLOCK.isPrefixOf (((buf.drop p).take k).drop j)) ∧
    (findTerm (buf.drop p) = none →
      scanLoop buf (fuel + 1) p d = ([], p)) := by
  constructor
  · intro k hk
    obtain ⟨hat, hmin⟩ := findTerm_some _ _ hk
    refine ⟨scanLoop_text_step buf fuel p d k hp hm hk, hat, ?_⟩
    intro j hj
    rw [List.drop_take] at hj
    by_cases hjk : j < k
    · exact hmin j hjk (isPrefixOf_take hj)
    · -- at or past the cut point the taken slice is empty
      have hz : k - j = 0 := Nat.sub_eq_zero_of_le (Nat.le_of_not_lt hjk)
      rw [hz, List.take_zero] at hj
      simp [ENDING_TEXT_BLOCK, List.isPrefixOf] at hj
  · intro hk
    rw [scanLoop, dif_pos hp, if_neg hm, hk]

/-- Witness for C5 at the concrete input `[0x41,0x0D,0x0A,0x0D,0x0A,0x42]`
(text `"A"`, a terminator, then an unterminated byte). -/
theorem c5_text_frame_delivery_witness :
    (0 < ([0x41, 0x0D, 0x0A, 0x0D, 0x0A, 0x42] : List Byte).length ∧
      ([0x41, 0x0D, 0x0A, 0x0D, 0x0A, 0x42] : List Byte).getD 0 0 ≠
        START_BYTE_BINARY_BLOCK) ∧
    ((∀ k,
        findTerm (([0x41, 0x0D, 0x0A, 0x0D, 0x0A, 0x42] : List Byte).drop 0) =
          some k →
        scanLoop [0x41, 0x0D, 0x0A, 0x0D, 0x0A, 0x42] (5 + 1) 0 0 =
          (Packet.text
              ((([0x41, 0x0D, 0x0A, 0x0D, 0x0A, 0x42] : List Byte).drop
                0).take k) ::
              (scanLoop [0x41, 0x0D, 0x0A, 0x0D, 0x0A, 0x42] 5 (0 + k + 4)
                0).1,
            (scanLoop [0x41, 0x0D, 0x0A, 0x0D, 0x0A, 0x42] 5 (0 + k + 4)
              0).2) ∧
        ENDING_TEXT_BLOCK.isPrefixOf
          ((([0x41, 0x0D, 0x0A, 0x0D, 0x0A, 0x42] : List Byte).drop 0).drop
            k) ∧
        ∀ j, ¬ENDING_TEXT_BLOCK.isPrefixOf
          (((([0x41, 0x0D, 0x0A, 0x0D, 0x0A, 0x42] : List Byte).drop 0).take
            k).drop j)) ∧
      (findTerm (([0x41, 0x0D, 0x0A, 0x0D, 0x0A, 0x42] : List Byte).drop 0) =
          none →
        scanLoop [0x41, 0x0D, 0x0A, 0x0D, 0x0A, 0x42] (5 + 1) 0 0 =
          ([], 0))) :=
  ⟨⟨by decide, by decide⟩,
    c5_text_frame_delivery [0x41, 0x0D, 0x0A, 0x0D, 0x0A, 0x42] 5 0 0
      (by decide) (by decide)⟩

/-- A `Receive` call on an empty carry-over buffer whose scan consumes the
whole input delivers the packets of the scan and leaves the buffer empty
(src/main.cpp:153-161). -/
theorem receive_complete (data : List Byte) (out : List Packet)
    (hne : ¬data.length = 0)
    (hscan : scanLoop data (data.length + 1) 0 0 = (out, data.length)) :
    receive [] data = ([], out) := by
  rw [receive, if_neg hne]
  simp [hscan]

/-- C7: the 4 bytes after the marker are read as a big-endian unsigned 32-bit
length — `__bswap_32` of the little-endian overlay makes the first byte most
significant (src/main.cpp:16-20, 121-124) — and the parser then expects
exactly that many payload bytes: a frame carrying exactly that many payload
bytes is delivered whole, as one `BinaryPacket` with precisely the payload. -/
theorem c7_big_endian_length (b0 b1 b2 b3 : Nat) (payload : List Byte)
    (h0 : b0 < 256) (h1 : b1 < 256) (h2 : b2 < 256) (h3 : b3 < 256)
    (hlen : payload.length = payloadSizeOf b0 b1 b2 b3)
    (hpos : 0 < payload.length) :
    payloadSizeOf b0 b1 b2 b3 = ((b0 * 256 + b1) * 256 + b2) * 256 + b3 ∧
    receive []
        (START_BYTE_BINARY_BLOCK :: b0 :: b1 :: b2 :: b3 :: payload) =
      ([], [Packet.binary payload]) := by
  constructor
  · have hm0 := Nat.mod_eq_of_lt h0
    have hm1 := Nat.mod_eq_of_lt h1
    have hm2 := Nat.mod_eq_of_lt h2
    have hm3 := Nat.mod_eq_of_lt h3
    simp only [payloadSizeOf, bswap32, binSize, hm0, hm1, hm2, hm3]
    have d1 : (b0 + b1 * 256 + b2 * 65536 + b3 * 16777216) % 256 = b0 := by
      omega
    have d2 : (b0 + b1 * 256 + b2 * 65536 + b3 * 16777216) / 256 % 256 = b1 := by
      omega
    have d3 : (b0 + b1 * 256 + b2 * 65536 + b3 * 16777216) / 65536 % 256 = b2 := by
      omega
    have d4 : (b0 + b1 * 256 + b2 * 65536 + b3 * 16777216) / 16777216 % 256 = b3 := by
      omega
    rw [d1, d2, d3, d4]
    ring
  · refine receive_complete _ [Packet.binary payload] (by simp) ?_
    rw [scanLoop]
    rw [dif_pos (show 0 <
      (START_BYTE_BINARY_BLOCK :: b0 :: b1 :: b2 :: b3 :: payload).length
      by simp)]
    rw [if_pos (show
      (START_BYTE_BINARY_BLOCK :: b0 :: b1 :: b2 :: b3 :: payload).getD 0 0 =
        START_BYTE_BINARY_BLOCK from rfl)]
    rw [if_pos (show
      (START_BYTE_BINARY_BLOCK :: b0 :: b1 :: b2 :: b3 :: payload).length - 0 >
        BINARY_HEADER_SIZE by
      simp [BINARY_HEADER_SIZE]; omega)]
    simp only []
    have e1 : (START_BYTE_BINARY_BLOCK :: b0 :: b1 :: b2 :: b3 ::
        payload).getD (0 + 1) 0 = b0 := rfl
    have e2 : (START_BYTE_BINARY_BLOCK :: b0 :: b1 :: b2 :: b3 ::
        payload).getD (0 + 2) 0 = b1 := rfl
    have e3 : (START_BYTE_BINARY_BLOCK :: b0 :: b1 :: b2 :: b3 ::
        payload).getD (0 + 3) 0 = b2 := rfl
    have e4 : (START_BYTE_BINARY_BLOCK :: b0 :: b1 :: b2 :: b3 ::
        payload).getD (0 + 4) 0 = b3 := rfl
    rw [e1, e2, e3, e4, ← hlen]
    rw [if_pos (show payload.length ≤
      (START_BYTE_BINARY_BLOCK :: b0 :: b1 :: b2 :: b3 :: payload).length -
        (0 + BINARY_HEADER_SIZE) by
      simp [BINARY_HEADER_SIZE])]
    rw [scanLoop_of_le _ _ _ _ (show
      (START_BYTE_BINARY_BLOCK :: b0 :: b1 :: b2 :: b3 :: payload).length ≤
        0 + BINARY_HEADER_SIZE + payload.length by
      simp [BINARY_HEADER_SIZE]; omega)]
    have hdrop : (START_BYTE_BINARY_BLOCK :: b0 :: b1 :: b2 :: b3 ::
        payload).drop (0 + BINARY_HEADER_SIZE) = payload := rfl
    rw [hdrop, List.take_length]
    simp [BINARY_HEADER_SIZE, Prod.ext_iff]
    omega

/-- Witness for C7 at the concrete header bytes `00 00 00 02` and payload
`[7, 8]`. -/
theorem c7_big_endian_length_witness :
    ((0 : Nat) < 256 ∧ (2 : Nat) < 256 ∧
      ([7, 8] : List Byte).length = payloadSizeOf 0 0 0 2 ∧
      0 < ([7, 8] : List Byte).length) ∧
    (payloadSizeOf 0 0 0 2 = ((0 * 256 + 0) * 256 + 0) * 256 + 2 ∧
      receive [] (START_BYTE_BINARY_BLOCK :: 0 :: 0 :: 0 :: 2 :: [7, 8]) =
        ([], [Packet.binary [7, 8]])) :=
  ⟨⟨by decide, by decide, by decide, by decide⟩,
    c7_big_endian_length 0 0 0 2 [7, 8] (by decide) (by decide) (by decide)
      (by decide) (by decide) (by decide)⟩

end SenderReceiver
